import Mathlib

/-!
Verification development for `src/ebooks/oeb/transforms/cover.py` of the
pdfmasher repository: a shallow embedding of the module's two components
(the series-index / Roman-numeral formatter and the `CoverManager` cover
inserter) together with theorems settling the specification claims.

Python numbers are embedded as `PyNum`: an `int` carrying a `ℤ`, or a
`float` carrying its exact value as an explicit numerator/denominator pair
`PRat` (Python floats in this module are only compared, truncated, scaled
by powers of ten and rendered, all of which are exact on pairs; a pair
representation keeps every operation kernel-computable).  Python strings
are Lean `String`s; fallible code returns `Except PyErr _`.  Loops whose
variant is not structural take an explicit fuel argument that is always
called with a sufficient value.
-/

namespace PdfMasher

/-- Python exception kinds that the embedded code can raise. -/
inductive PyErr where
  | valueError
  | typeError
  | keyError
  | indexError
deriving DecidableEq, Repr

/-- An exact rational value `n / d`: the value of a Python float.  Every
pair built by the embedding has a positive denominator. -/
structure PRat where
  n : ℤ
  d : ℕ
deriving DecidableEq, Repr

/-- Embed an integer. -/
def PRat.ofInt (z : ℤ) : PRat := ⟨z, 1⟩

/-- Value comparison `a ≤ b` by cross multiplication. -/
def PRat.ble (a b : PRat) : Bool := decide (a.n * (b.d : ℤ) ≤ b.n * (a.d : ℤ))

/-- Value comparison `a < b` by cross multiplication. -/
def PRat.blt (a b : PRat) : Bool := decide (a.n * (b.d : ℤ) < b.n * (a.d : ℤ))

/-- Value equality `a == b` by cross multiplication (Python `==` between
numbers compares values, not representations). -/
def PRat.beqv (a b : PRat) : Bool := decide (a.n * (b.d : ℤ) = b.n * (a.d : ℤ))

/-- Python `int()` on a numeric value: truncation toward zero. -/
def PRat.trunc (q : PRat) : ℤ := Int.tdiv q.n (q.d : ℤ)

/-- `q * 10` (exact). -/
def PRat.mulTen (q : PRat) : PRat := ⟨q.n * 10, q.d⟩

/-- `q - z` for an integer `z` (exact). -/
def PRat.subInt (q : PRat) (z : ℤ) : PRat := ⟨q.n - z * (q.d : ℤ), q.d⟩

/-- A Python number: an `int`, or a `float` carrying its exact value. -/
inductive PyNum where
  | int (z : ℤ)
  | float (q : PRat)
deriving DecidableEq, Repr

/-- The value of a Python number as a pair. -/
def PyNum.val : PyNum → PRat
  | PyNum.int z => PRat.ofInt z
  | PyNum.float q => q

/-- Decimal digits of the fractional part `0 ≤ q < 1` of a float, with fuel
bounding the number of emitted digits (Python floats have finite decimal
expansions; the fuel is never exhausted for exactly-representable values). -/
def fracDigits : Nat → PRat → String
  | 0, _ => ""
  | fuel + 1, q =>
    if q.n = 0 then ""
    else
      let q10 := q.mulTen
      let dg := q10.trunc
      toString dg ++ fracDigits fuel (q10.subInt dg)

/-- Python `str` of a nonnegative float value: integer part, a dot, then the
fractional digits (`"0"` when the value is integral, so `str(2.0) = "2.0"`). -/
def pyFloatStrNonneg (q : PRat) : String :=
  let ip := q.trunc
  let fp := q.subInt ip
  toString ip ++ "." ++ (if fp.n = 0 then "0" else fracDigits 17 fp)

/-- Python `str` of a float value (finite-decimal rendering, e.g.
`str(2.5) = "2.5"`, `str(-2.5) = "-2.5"`). -/
def pyFloatStr (q : PRat) : String :=
  if q.blt (PRat.ofInt 0) then "-" ++ pyFloatStrNonneg ⟨-q.n, q.d⟩
  else pyFloatStrNonneg q

/-- Python `str` of a number: decimal form for ints, float rendering for floats. -/
def PyNum.str : PyNum → String
  | PyNum.int z => toString z
  | PyNum.float q => pyFloatStr q

/-- The module-level `coding` table:
`coding = list(zip([1000,900,...,1], ["M","CM",...,"I"]))`. -/
def coding : List (Nat × String) :=
  [(1000, "M"), (900, "CM"), (500, "D"), (400, "CD"), (100, "C"), (90, "XC"),
   (50, "L"), (40, "XL"), (10, "X"), (9, "IX"), (5, "V"), (4, "IV"), (1, "I")]

/-- The source's inner loop `while num >= d: result.append(r); num -= d`,
returning the emitted symbols and the final remainder.  The fuel bounds the
iteration count; since every `d` in `coding` is at least `1`, the loop for a
remainder `num` runs at most `num` times, and the caller passes `num` as
fuel, which therefore never runs out. -/
def romanWhile : Nat → Nat → String → Nat → String × Nat
  | 0, _, _, num => ("", num)
  | fuel + 1, d, r, num =>
    if d ≤ num then
      let p := romanWhile fuel d r (num - d)
      (r ++ p.1, p.2)
    else ("", num)

/-- The source's outer loop `for d, r in coding:` of `roman`. -/
def romanCore : Nat → List (Nat × String) → String
  | _, [] => ""
  | num, (d, r) :: rest =>
    let p := romanWhile num d r num
    p.1 ++ romanCore p.2 rest

/-- `roman(num)` from the source:
`if num <= 0 or num >= 4000 or int(num) != num: return str(num)`, otherwise
the greedy loop over `coding`. -/
def roman (num : PyNum) : String :=
  if num.val.ble (PRat.ofInt 0) ∨ (PRat.ofInt 4000).ble num.val ∨
      ¬(PRat.ofInt num.val.trunc).beqv num.val then
    num.str
  else
    romanCore num.val.trunc.toNat coding

/-- Values that `fmt_sidx` may receive for its argument `i`: Python `None`,
a string, a number, or some other object (one on which `float()` raises
`TypeError`), carried with its `str` rendering. -/
inductive PyVal where
  | none
  | str (s : String)
  | int (z : ℤ)
  | float (q : PRat)
  | other (r : String)
deriving DecidableEq, Repr

/-- Strip leading and trailing whitespace (Python `float()` ignores it). -/
def pyStripWs (l : List Char) : List Char :=
  ((l.dropWhile Char.isWhitespace).reverse.dropWhile Char.isWhitespace).reverse

/-- Accumulate decimal digits into a natural number. -/
def digitsToNat (cs : List Char) : Nat :=
  List.foldl (fun a c => a * 10 + (c.toNat - 48)) 0 cs

/-- Python `float(s)` on a string: parse an optional sign followed by a
decimal literal `digits [. digits]` (at least one digit overall), yielding
the exact value, or `none` when the string is not a valid float literal
(Python then raises `ValueError`).  Exponent forms are not modelled; no
claim depends on them. -/
def pyFloatParse (s : String) : Option PRat :=
  let cs := pyStripWs s.data
  let sign : ℤ × List Char :=
    match cs with
    | '-' :: rest => (-1, rest)
    | '+' :: rest => (1, rest)
    | _ => (1, cs)
  let intPart := sign.2.takeWhile Char.isDigit
  let rest := sign.2.dropWhile Char.isDigit
  match rest with
  | [] =>
    if intPart.isEmpty then Option.none
    else Option.some ⟨sign.1 * (digitsToNat intPart : ℤ), 1⟩
  | '.' :: rest2 =>
    let fracPart := rest2.takeWhile Char.isDigit
    let rest3 := rest2.dropWhile Char.isDigit
    if rest3.isEmpty ∧ ¬(intPart.isEmpty ∧ fracPart.isEmpty) then
      Option.some ⟨sign.1 * ((digitsToNat intPart : ℤ) * (10 : ℤ) ^ fracPart.length
        + (digitsToNat fracPart : ℤ)), 10 ^ fracPart.length⟩
    else Option.none
  | _ => Option.none

/-- The numeric tail of `fmt_sidx` once `i` has become a float `q`:
`if int(i) == float(i): return roman(int(i)) if use_roman else '%d'%int(i)`
then `return fmt%i`.  The format spec is a function `PRat → String`. -/
def fmtNum (q : PRat) (fmtFn : PRat → String) (use_roman : Bool) : String :=
  if (PRat.ofInt q.trunc).beqv q then
    if use_roman then roman (PyNum.int q.trunc) else toString q.trunc
  else fmtFn q

/-- The default format spec `'%.2f'`: two decimal places, rounding half away
from zero at the second decimal (the claims only use exact values, where no
rounding occurs). -/
def pyFmt2f (q : PRat) : String :=
  let scaled : ℤ := Int.fdiv (2 * (q.n * 100) + (q.d : ℤ)) (2 * (q.d : ℤ))
  let sign := if scaled < 0 then "-" else ""
  let a := scaled.natAbs
  sign ++ toString (a / 100) ++ "." ++
    (if a % 100 < 10 then "0" ++ toString (a % 100) else toString (a % 100))

/-- `fmt_sidx(i, fmt='%.2f', use_roman=False)` from the source.  `None` and
the empty string become `1`; `float(i)` on a non-numeric string raises
`ValueError`, which the source's `except TypeError` clause does not catch, so
it propagates; `float(i)` on a non-string non-numeric object raises
`TypeError`, which is caught and answered with `str(i)`. -/
def fmt_sidx (i : PyVal) (fmtFn : PRat → String) (use_roman : Bool) : Except PyErr String :=
  let i2 := if i = PyVal.none ∨ i = PyVal.str "" then PyVal.int 1 else i
  match i2 with
  | PyVal.none => Except.ok (fmtNum (PRat.ofInt 1) fmtFn use_roman)
  | PyVal.str s =>
    match pyFloatParse s with
    | Option.none => Except.error PyErr.valueError
    | Option.some q => Except.ok (fmtNum q fmtFn use_roman)
  | PyVal.int z => Except.ok (fmtNum (PRat.ofInt z) fmtFn use_roman)
  | PyVal.float q => Except.ok (fmtNum q fmtFn use_roman)
  | PyVal.other r => Except.ok r

/-- Symbol values of a standard Roman-to-integer parser (from the claim's
words, independent of `roman`). -/
def romanCharVal : Char → Nat
  | 'I' => 1
  | 'V' => 5
  | 'X' => 10
  | 'L' => 50
  | 'C' => 100
  | 'D' => 500
  | 'M' => 1000
  | _ => 0

/-- The scan of the standard Roman-to-integer parser: a symbol strictly
smaller than its successor is subtracted, any other symbol is added. -/
def romanToIntCore : List Char → ℤ
  | [] => 0
  | c :: rest =>
    match rest with
    | [] => (romanCharVal c : ℤ)
    | c2 :: _ =>
      (if romanCharVal c < romanCharVal c2 then -(romanCharVal c : ℤ) else (romanCharVal c : ℤ))
        + romanToIntCore rest

/-- The greedy subtractive-pair decomposition exactly as the claim states it:
repeatedly emit the symbol of the largest tabulated value that is at most the
remainder and subtract, until the remainder is zero.  `coding` is sorted in
decreasing order, so `find?` returns the largest admissible value.  The fuel
bounds the number of emitted symbols; every tabulated value is at least `1`,
so at most `n` symbols are emitted and the wrapper's fuel `n` never runs
out. -/
def greedySpecCore : Nat → Nat → String
  | 0, _ => ""
  | fuel + 1, rem =>
    match coding.find? (fun p => decide (p.1 ≤ rem)) with
    | Option.some (d, r) => r ++ greedySpecCore fuel (rem - d)
    | Option.none => ""

/-- The claim's greedy decomposition of `n`. -/
def greedySpec (n : Nat) : String := greedySpecCore n n

/-- The seven Roman symbol characters. -/
def romanSyms : List Char := ['M', 'D', 'C', 'L', 'X', 'V', 'I']

/-- The value of the first character of a symbol (`0` for the empty string). -/
def headVal (l : List Char) : Nat :=
  match l with
  | [] => 0
  | c :: _ => romanCharVal c

/-- The value of the last character of a symbol (`0` for the empty string). -/
def lastVal (l : List Char) : Nat :=
  match l.getLast? with
  | Option.some c => romanCharVal c
  | Option.none => 0

/-- The largest `coding` value that is at most `rem` (`0` when none fits):
the value of the entry that `greedySpecCore`'s `find?` selects (the table is
sorted in decreasing order). -/
def fitVal (rem : Nat) : Nat :=
  match coding.find? (fun p => decide (p.1 ≤ rem)) with
  | Option.some p => p.1
  | Option.none => 0

/-! ### String machinery for the cover inserter

Python `str.replace`, `%`-formatting with `%s`/`%%`, `urllib.parse.unquote`
and `urldefrag` are embedded over `List Char`.  Recursions that are not
structural take a fuel argument always called with the list's length, which
is sufficient because every step consumes at least one character. -/

/-- Does `l` start with `pat`? -/
def listStarts : List Char → List Char → Bool
  | [], _ => true
  | _ :: _, [] => false
  | a :: as, b :: bs => a == b && listStarts as bs

/-- Python `s.replace(pat, rep)`: replace every non-overlapping occurrence of
`pat`, scanning left to right.  One fuel unit is spent per emitted position;
each step consumes at least one character, so fuel `l.length` suffices. -/
def replaceCore (pat rep : List Char) : Nat → List Char → List Char
  | 0, l => l
  | fuel + 1, l =>
    match l with
    | [] => []
    | c :: cs =>
      if pat ≠ [] ∧ listStarts pat l then
        rep ++ replaceCore pat rep fuel (List.drop pat.length l)
      else
        c :: replaceCore pat rep fuel cs

/-- Python `s.replace(pat, rep)` on strings. -/
def pyReplace (s pat rep : String) : String :=
  ⟨replaceCore pat.data rep.data s.data.length s.data⟩

/-- Python `templ % arg` for a template whose only conversions are `%s`
(receiving `arg`) and the escape `%%`: the shape of both templates in the
source (other `%` sequences pass through, unreachable on the templates). -/
def percentCore (arg : List Char) : List Char → List Char
  | [] => []
  | [c] => [c]
  | c1 :: c2 :: rest =>
    if c1 = '%' then
      if c2 = 's' then arg ++ percentCore arg rest
      else if c2 = '%' then '%' :: percentCore arg rest
      else c1 :: percentCore arg (c2 :: rest)
    else c1 :: percentCore arg (c2 :: rest)

/-- `templ % arg` on strings. -/
def pyPercentS (templ arg : String) : String := ⟨percentCore arg.data templ.data⟩

/-- Python `templ % (a1, a2)` for a template with exactly two `%s`
conversions (the fixed-size style string of `__init__`). -/
def percentCore2 (a1 a2 : List Char) : List Char → List Char
  | [] => []
  | [c] => [c]
  | c1 :: c2 :: rest =>
    if c1 = '%' then
      if c2 = 's' then a1 ++ percentCore a2 rest
      else if c2 = '%' then '%' :: percentCore2 a1 a2 rest
      else c1 :: percentCore2 a1 a2 (c2 :: rest)
    else c1 :: percentCore2 a1 a2 (c2 :: rest)

/-- `templ % (a1, a2)` on strings. -/
def pyPercentS2 (templ a1 a2 : String) : String := ⟨percentCore2 a1.data a2.data templ.data⟩

/-- Split a template at its first `%s` conversion: the processed text before
it (with `%%` collapsed to `%`) and the raw text after it. -/
def psSplit : List Char → List Char × List Char
  | [] => ([], [])
  | [c] => ([c], [])
  | c1 :: c2 :: rest =>
    if c1 = '%' then
      if c2 = 's' then ([], rest)
      else if c2 = '%' then
        let p := psSplit rest; ('%' :: p.1, p.2)
      else
        let p := psSplit (c2 :: rest); (c1 :: p.1, p.2)
    else
      let p := psSplit (c2 :: rest); (c1 :: p.1, p.2)

/-- Does the template contain a `%s` conversion (scanning as `%` does)? -/
def hasPS : List Char → Bool
  | [] => false
  | [_] => false
  | c1 :: c2 :: rest =>
    if c1 = '%' then
      if c2 = 's' then true
      else if c2 = '%' then hasPS rest
      else hasPS (c2 :: rest)
    else hasPS (c2 :: rest)

/-- Substring search over character lists. -/
def subSearch (sub : List Char) : List Char → Bool
  | [] => sub.isEmpty
  | c :: rest => listStarts sub (c :: rest) || subSearch sub rest

/-- `sub` occurs as a contiguous substring of `s`. -/
def containsSub (s sub : String) : Prop :=
  ∃ a b : List Char, s.data = a ++ sub.data ++ b

/-- Hexadecimal value of a character, if any. -/
def hexVal (c : Char) : Option Nat :=
  if '0' ≤ c ∧ c ≤ '9' then Option.some (c.toNat - 48)
  else if 'a' ≤ c ∧ c ≤ 'f' then Option.some (c.toNat - 87)
  else if 'A' ≤ c ∧ c ≤ 'F' then Option.some (c.toNat - 55)
  else Option.none

/-- `urllib.parse.unquote`: decode `%XX` escapes (single-byte escapes; the
multi-byte UTF-8 recombination of the library function is not modelled — the
hrefs of the claims are ASCII).  Invalid escapes pass through unchanged. -/
def unquoteCore : Nat → List Char → List Char
  | 0, l => l
  | fuel + 1, l =>
    match l with
    | [] => []
    | '%' :: a :: b :: rest =>
      match hexVal a, hexVal b with
      | Option.some x, Option.some y => Char.ofNat (16 * x + y) :: unquoteCore fuel rest
      | _, _ => '%' :: unquoteCore fuel (a :: b :: rest)
    | c :: rest => c :: unquoteCore fuel rest

/-- `unquote` on strings. -/
def unquote (s : String) : String := ⟨unquoteCore s.data.length s.data⟩

/-- Modelled from the spec: `urldefrag(href)[0]` from `..base` (the module
`ebooks/oeb/base.py` is not under `src/`) — the href with any `#fragment`
removed. -/
def urldefragFst (s : String) : String := ⟨s.data.takeWhile (fun c => c ≠ '#')⟩

/-- Modelled from the spec: `guess_type('t.xhtml')[0]` from
`...utils.mimetypes` (not under `src/`) — "the appropriate markup media
type" for an `.xhtml` page. -/
def guessTypeXhtml : String := "application/xhtml+xml"

/-! ### The book's document model

Modelled from the spec (§6 "External interfaces"): the in-memory
metadata/manifest/guide/spine collaborator of `ebooks/oeb/base.py` is not
under `src/`; these structures implement exactly the accessor contract the
spec lists: guide membership/read/add/update, manifest `generate`/`add` and
reverse lookup by href, spine insertion at an index with a linear flag, and
read-only metadata fields. -/

/-- A guide reference: a named pointer with a title and an href (the name is
the key under which it is stored). -/
structure GuideRef where
  title : String
  href : String
deriving DecidableEq, Repr

/-- The guide: an association list from reference names to references. -/
abbrev Guide := List (String × GuideRef)

/-- `guide[name]`: lookup of the first reference stored under a name. -/
def guideGet : Guide → String → Option GuideRef
  | [], _ => Option.none
  | p :: g, k => if p.1 == k then Option.some p.2 else guideGet g k

/-- `name in guide`. -/
def guideMem (g : Guide) (k : String) : Bool := (guideGet g k).isSome

/-- `guide.add(type, title, href)`: append a new reference. -/
def guideAdd (g : Guide) (k title href : String) : Guide :=
  g ++ [(k, ⟨title, href⟩)]

/-- `guide.refs[k].href = v`: repoint the reference(s) stored under `k`. -/
def guideSetHref : Guide → String → String → Guide
  | [], _, _ => []
  | p :: g, k, v =>
    (if p.1 == k then (p.1, { p.2 with href := v }) else p) :: guideSetHref g k v

/-- A manifest item: one document-package resource.  `data` holds the markup
string; the parsing of markup into a tree node (`etree.fromstring`) is an
excluded collaborator and is modelled as the identity on the markup. -/
structure ManifestItem where
  id : String
  href : String
  media_type : String
  data : String
deriving DecidableEq, Repr

/-- The manifest: its list of items. -/
structure Manifest where
  items : List ManifestItem
deriving DecidableEq, Repr

/-- `manifest.hrefs[href]`: reverse lookup by href. -/
def manifestHrefs (m : Manifest) (href : String) : Option ManifestItem :=
  m.items.find? (fun it => it.href == href)

/-- Split a filename at its last dot into stem and extension. -/
def splitExt (s : String) : String × String :=
  let tailLen := (s.data.reverse.takeWhile (fun c => c ≠ '.')).length
  if tailLen = s.data.length then (s, "")
  else (⟨s.data.take (s.data.length - tailLen - 1)⟩, ⟨s.data.drop (s.data.length - tailLen - 1)⟩)

/-- Modelled from the spec: `manifest.generate(id, href)` — "generating a
fresh unique (id, href) pair for a given base name and extension".  Numbered
candidates are tried in order (`titlepage`, `titlepage_1`, …); a free one
exists among the first `items.length + 1` by pigeonhole. -/
def Manifest.generate (m : Manifest) (idBase hrefBase : String) : String × String :=
  let usedIds := m.items.map (fun it => it.id)
  let usedHrefs := m.items.map (fun it => it.href)
  let idCand := fun (k : Nat) => if k = 0 then idBase else idBase ++ "_" ++ toString k
  let se := splitExt hrefBase
  let hrefCand := fun (k : Nat) =>
    if k = 0 then hrefBase else se.1 ++ "_" ++ toString k ++ se.2
  let id :=
    match (List.range (m.items.length + 1)).find? (fun k => !usedIds.contains (idCand k)) with
    | Option.some k => idCand k
    | Option.none => idBase
  let href :=
    match (List.range (m.items.length + 1)).find? (fun k => !usedHrefs.contains (hrefCand k)) with
    | Option.some k => hrefCand k
    | Option.none => hrefBase
  (id, href)

/-- Modelled from the spec: the read-only metadata fields the inserter
touches — `title[0]`, `creator[*].{name,role}`, `series[0]`,
`series_index[0]`. -/
structure Metadata where
  title : List String
  creator : List (String × String)
  series : List String
  series_index : List PyVal
deriving DecidableEq, Repr

/-- The book (`oeb`): metadata, manifest, spine (items with their linear
flags) and guide. -/
structure Book where
  metadata : Metadata
  manifest : Manifest
  spine : List (ManifestItem × Bool)
  guide : Guide
deriving DecidableEq

/-! ### The cover inserter -/

/-- `CoverManager.SVG_TEMPLATE` after `textwrap.dedent`. -/
def SVG_TEMPLATE : String :=
  "<html xmlns=\"http://www.w3.org/1999/xhtml\" xml:lang=\"en\">\n    <head>\n        <meta http-equiv=\"Content-Type\" content=\"text/html; charset=UTF-8\" />\n        <meta name=\"calibre:cover\" content=\"true\" />\n        <title>Cover</title>\n        <style type=\"text/css\" title=\"override_css\">\n            @page \x7bpadding: 0pt; margin:0pt\x7d\n            body \x7b text-align: center; padding:0pt; margin: 0pt; \x7d\n        </style>\n    </head>\n    <body>\n        <div>\n            <svg version=\"1.1\" xmlns=\"http://www.w3.org/2000/svg\"\n                xmlns:xlink=\"http://www.w3.org/1999/xlink\"\n                width=\"100%%\" height=\"100%%\" viewBox=\"__viewbox__\"\n                preserveAspectRatio=\"__ar__\">\n                <image width=\"__width__\" height=\"__height__\" xlink:href=\"%s\"/>\n            </svg>\n        </div>\n    </body>\n</html>\n"

/-- `CoverManager.NONSVG_TEMPLATE` after `textwrap.dedent` (the final
whitespace-only line of the source literal is indented less than the common
margin, so four trailing spaces survive dedenting). -/
def NONSVG_TEMPLATE : String :=
  "<html xmlns=\"http://www.w3.org/1999/xhtml\" xml:lang=\"en\">\n    <head>\n        <meta http-equiv=\"Content-Type\" content=\"text/html; charset=UTF-8\" />\n        <meta name=\"calibre:cover\" content=\"true\" />\n        <title>Cover</title>\n        <style type=\"text/css\" title=\"override_css\">\n            @page \x7bpadding: 0pt; margin:0pt\x7d\n            body \x7b text-align: center; padding:0pt; margin: 0pt \x7d\n            div \x7b padding:0pt; margin: 0pt \x7d\n            img \x7b padding:0pt; margin: 0pt \x7d\n        </style>\n    </head>\n    <body>\n        <div>\n            <img src=\"%s\" alt=\"cover\" __style__ />\n        </div>\n    </body>\n</html>\n    "

/-- The `CoverManager` instance state: the four configuration flags/values
of `__init__` and the two instance templates.  (`preserveAspect` embeds the
source attribute `preserve_aspect_ratio`.) -/
structure CoverManager where
  no_default_cover : Bool
  no_svg_cover : Bool
  preserveAspect : Bool
  svg_template : String
  non_svg_template : String
deriving DecidableEq, Repr

/-- `CoverManager.__init__(no_default_cover, no_svg_cover,
preserve_aspect_ratio, fixed_size)`. -/
def CoverManager.init (no_default_cover no_svg_cover preserveAspect : Bool)
    (fixed_size : Option (String × String)) : CoverManager :=
  let ar := if preserveAspect then "xMidYMid meet" else "none"
  let svg_template := pyReplace SVG_TEMPLATE "__ar__" ar
  let style :=
    match fixed_size with
    | Option.none => "style=\"height: 100%%\""
    | Option.some wh => pyPercentS2 "style=\"height: %s; width: %s\"" wh.1 wh.2
  let non_svg_template := pyReplace NONSVG_TEMPLATE "__style__" style
  ⟨no_default_cover, no_svg_cover, preserveAspect, svg_template, non_svg_template⟩

/-- `CoverManager.default_cover(self)`: the synthesis body is commented out
in the source, so after reading the metadata (whose accesses can raise) the
method returns `None`.  `m.title[0]` raises `IndexError` on an empty title
list; `fmt_sidx` on a malformed series index propagates its error. -/
def CoverManager.default_cover (cm : CoverManager) (m : Metadata) :
    Except PyErr (Option String) :=
  if cm.no_default_cover then Except.ok Option.none
  else
    match m.title.head? with
    | Option.none => Except.error PyErr.indexError
    | Option.some _t =>
      let _authors := (m.creator.filter (fun c => c.2 == "aut")).map (fun c => c.1)
      let seriesE : Except PyErr (Option String) :=
        if ¬m.series.isEmpty ∧ ¬m.series_index.isEmpty then
          match m.series_index.head?, m.series.head? with
          | Option.some sv, Option.some sname =>
            match fmt_sidx sv pyFmt2f true with
            | Except.error e => Except.error e
            | Except.ok sidx => Except.ok (Option.some ("Book " ++ sidx ++ " of " ++ sname))
          | _, _ => Except.error PyErr.indexError
        else Except.ok Option.none
      match seriesE with
      | Except.error e => Except.error e
      | Except.ok _series_string => Except.ok Option.none

/-- The tail of `insert_cover` guarded by `if item is not None:` — spine
insertion at position 0 with the linear flag, and the guide rewiring.  The
third component carries the warning log. -/
def finishInsert (cm : CoverManager) (book : Book) (item : ManifestItem)
    (logs : List String) : CoverManager × Book × List String :=
  let spine := (item, true) :: book.spine
  let g := book.guide
  let g := if guideMem g "cover" then g else guideAdd g "cover" "Title Page" "a"
  let g := guideSetHref g "cover" item.href
  let g := if guideMem g "titlepage" then guideSetHref g "titlepage" item.href else g
  (cm, { book with spine := spine, guide := g }, logs)

/-- `CoverManager.insert_cover(self)`.  The image-dimension inspection is an
excluded external collaborator (the body of `inspect_cover` is commented out
in the source, leaving the stub `return None, None`); it is passed in as
`inspectFn`, with `Option.none` meaning inspection failed.  The returned
triple is the updated instance, the updated book, and the warning log. -/
def CoverManager.insert_cover (cm : CoverManager)
    (inspectFn : String → Option (Nat × Nat)) (book : Book) :
    Except PyErr (CoverManager × Book × List String) :=
  match guideGet book.guide "titlepage" with
  | Option.none =>
    let hrefE : Except PyErr (Option String) :=
      match guideGet book.guide "cover" with
      | Option.some r => Except.ok (Option.some r.href)
      | Option.none => cm.default_cover book.metadata
    match hrefE with
    | Except.error e => Except.error e
    | Except.ok Option.none => Except.ok (cm, book, [])
    | Except.ok (Option.some href) =>
      let wh := inspectFn href
      let logs := match wh with
        | Option.none => ["Failed to read cover dimensions"]
        | Option.some _ => []
      let dims := match wh with
        | Option.some p => p
        | Option.none => (600, 800)
      let svg1 := pyReplace cm.svg_template "__viewbox__"
        ("0 0 " ++ toString dims.1 ++ " " ++ toString dims.2)
      let svg2 := pyReplace svg1 "__width__" (toString dims.1)
      let svg3 := pyReplace svg2 "__height__" (toString dims.2)
      let cm2 : CoverManager := { cm with svg_template := svg3 }
      let templ := if cm2.no_svg_cover then cm2.non_svg_template else cm2.svg_template
      let tp := pyPercentS templ (unquote href)
      let gen := book.manifest.generate "titlepage" "titlepage.xhtml"
      let item : ManifestItem := ⟨gen.1, gen.2, guessTypeXhtml, tp⟩
      let book2 : Book := { book with manifest := ⟨book.manifest.items ++ [item]⟩ }
      Except.ok (finishInsert cm2 book2 item logs)
  | Option.some r =>
    match manifestHrefs book.manifest (urldefragFst r.href) with
    | Option.none => Except.error PyErr.keyError
    | Option.some item => Except.ok (finishInsert cm book item [])

/-- The three placeholder substitutions insert_cover applies to the SVG
template for dimensions `w × h` (abbreviation used by the theorems). -/
def filledTemplate (t : String) (w h : Nat) : String :=
  pyReplace (pyReplace (pyReplace t "__viewbox__"
    ("0 0 " ++ toString w ++ " " ++ toString h)) "__width__" (toString w))
    "__height__" (toString h)

/-- Projection used by concrete counterexamples: the instance's
`svg_template` after a successful run. -/
def runSvgTemplate (e : Except PyErr (CoverManager × Book × List String)) : Option String :=
  match e with
  | Except.ok r => Option.some r.1.svg_template
  | Except.error _ => Option.none

/-- Did the run return normally? -/
def runOk (e : Except PyErr (CoverManager × Book × List String)) : Bool :=
  match e with
  | Except.ok _ => true
  | Except.error _ => false

/-! ### Concrete instances used by witnesses and counterexamples -/

/-- A minimal metadata record. -/
def mdT : Metadata := ⟨["T"], [], [], []⟩

/-- The default-configured manager. -/
def cmDef : CoverManager := CoverManager.init false false false Option.none

/-- The manager with default-cover generation suppressed. -/
def cmNoDef : CoverManager := CoverManager.init true false false Option.none

/-- A guide cover reference with a percent-escaped href. -/
def coverRefC : GuideRef := ⟨"Cover", "c%20x.png"⟩

/-- A book whose guide has a `"cover"` reference and no `"titlepage"`. -/
def bkCover : Book := ⟨mdT, ⟨[]⟩, [], [("cover", coverRefC)]⟩

/-- An existing titlepage manifest item. -/
def itTp : ManifestItem := ⟨"tp", "tp.xhtml", "application/xhtml+xml", "existing"⟩

/-- A book whose guide already has a `"titlepage"` reference (with a
fragment) resolving to `itTp`. -/
def bkTp : Book := ⟨mdT, ⟨[itTp]⟩, [], [("titlepage", ⟨"TP", "tp.xhtml#frag"⟩)]⟩

/-- A book with neither `"cover"` nor `"titlepage"` in its guide. -/
def bkNone : Book := ⟨mdT, ⟨[]⟩, [], []⟩

/-- An inspection collaborator returning 300×400. -/
def inspOk : String → Option (Nat × Nat) := fun _ => Option.some (300, 400)

/-- An inspection collaborator that always fails. -/
def inspFail : String → Option (Nat × Nat) := fun _ => Option.none

/-- The induction invariant tying a greedy decomposition to its remainder:
the standard parser recovers the remainder, the first emitted character is
no larger than the largest fitting table value, all characters are Roman
symbols, and the decomposition of a positive remainder is nonempty. -/
def greedyInv (s : String) (rem : Nat) : Prop :=
  romanToIntCore s.data = (rem : ℤ) ∧
  headVal s.data ≤ fitVal rem ∧
  (∀ c ∈ s.data, c ∈ romanSyms) ∧
  (1 ≤ rem → s.data ≠ [])

/-! ## Theorems

General lemmas first, then one theorem per claim (with witnesses and
counterexamples where required). -/

/-- A successful `listStarts` exhibits a suffix. -/
theorem listStarts_sound : ∀ (pre l : List Char), listStarts pre l = true → ∃ t, l = pre ++ t := by
  intro pre
  induction pre with
  | nil => intro l _; exact ⟨l, rfl⟩
  | cons a as ih =>
    intro l h
    cases l with
    | nil => simp [listStarts] at h
    | cons b bs =>
      simp only [listStarts, Bool.and_eq_true, beq_iff_eq] at h
      obtain ⟨t, ht⟩ := ih bs h.2
      exact ⟨t, by simp [h.1, ht]⟩

/-- A successful `subSearch` exhibits an occurrence. -/
theorem subSearch_sound : ∀ (l sub : List Char), subSearch sub l = true → ∃ x y, l = x ++ sub ++ y := by
  intro l
  induction l with
  | nil =>
    intro sub h
    simp only [subSearch, List.isEmpty_iff] at h
    exact ⟨[], [], by simp [h]⟩
  | cons c cs ih =>
    intro sub h
    simp only [subSearch, Bool.or_eq_true] at h
    rcases h with h | h
    · obtain ⟨t, ht⟩ := listStarts_sound sub (c :: cs) h
      exact ⟨[], t, by simp [ht]⟩
    · obtain ⟨x, y, hxy⟩ := ih sub h
      exact ⟨c :: x, y, by simp [hxy]⟩

/-- `lastVal` ignores a leading character when at least two remain. -/
theorem lastVal_cons_cons (c1 c2 : Char) (l : List Char) :
    lastVal (c1 :: c2 :: l) = lastVal (c2 :: l) := by
  simp [lastVal, List.getLast?_cons_cons]

/-- The parser is additive across a boundary where the last character of the
left part dominates the first character of the right part. -/
theorem romanToIntCore_append (x y : List Char) :
    (x = [] ∨ headVal y ≤ lastVal x) →
    romanToIntCore (x ++ y) = romanToIntCore x + romanToIntCore y := by
  induction x with
  | nil => intro _; simp [romanToIntCore]
  | cons c cs ih =>
    intro h
    replace h : headVal y ≤ lastVal (c :: cs) := by
      rcases h with h | h
      · exact absurd h (List.cons_ne_nil c cs)
      · exact h
    cases cs with
    | nil =>
      cases y with
      | nil => simp [romanToIntCore]
      | cons c2 ys =>
        have hv : romanCharVal c2 ≤ romanCharVal c := by
          simpa [headVal, lastVal] using h
        show romanToIntCore (c :: c2 :: ys) = romanToIntCore [c] + romanToIntCore (c2 :: ys)
        simp [romanToIntCore, Nat.not_lt.mpr hv]
    | cons c2 rest =>
      have h2 : headVal y ≤ lastVal (c2 :: rest) := by rwa [lastVal_cons_cons] at h
      have ih2 := ih (Or.inr h2)
      show romanToIntCore (c :: ((c2 :: rest) ++ y)) = _
      rw [List.cons_append] at ih2 ⊢
      show romanToIntCore (c :: c2 :: (rest ++ y)) =
        romanToIntCore (c :: c2 :: rest) + romanToIntCore y
      simp only [romanToIntCore] at ih2 ⊢
      omega

/-- A `while` loop whose condition fails does nothing, for any fuel. -/
theorem romanWhile_stop (f d : Nat) (r : String) (num : Nat) (h : ¬d ≤ num) :
    romanWhile f d r num = ("", num) := by
  cases f with
  | zero => rfl
  | succ f => simp [romanWhile, h]

/-- The fuel of `romanWhile` is irrelevant once it is at least `num`
(each iteration of the source's `while num >= d` removes `d ≥ 1`). -/
theorem romanWhile_congr : ∀ (f1 f2 d : Nat) (r : String) (num : Nat),
    1 ≤ d → num ≤ f1 → num ≤ f2 → romanWhile f1 d r num = romanWhile f2 d r num := by
  intro f1
  induction f1 with
  | zero =>
    intro f2 d r num hd h1 _
    have hnum : num = 0 := by omega
    subst hnum
    rw [romanWhile_stop f2 d r 0 (by omega)]
    rfl
  | succ f1 ih =>
    intro f2 d r num hd h1 h2
    by_cases hc : d ≤ num
    · have hn : 1 ≤ num := by omega
      cases f2 with
      | zero => omega
      | succ f2 =>
        simp only [romanWhile, if_pos hc]
        rw [ih f2 d r (num - d) hd (by omega) (by omega)]
    · rw [romanWhile_stop _ d r num hc, romanWhile_stop _ d r num hc]

/-- With remainder `0`, the whole loop nest emits nothing. -/
theorem romanCore_zero : ∀ l : List (Nat × String), romanCore 0 l = "" := by
  intro l
  induction l with
  | nil => rfl
  | cons p rest ih =>
    obtain ⟨d, r⟩ := p
    show (romanWhile 0 d r 0).1 ++ romanCore (romanWhile 0 d r 0).2 rest = ""
    show "" ++ romanCore 0 rest = ""
    rw [String.empty_append, ih]

/-- An entry too large for the remainder is skipped. -/
theorem romanCore_step_lt (d : Nat) (r : String) (rest : List (Nat × String)) (rem : Nat)
    (h : rem < d) : romanCore rem ((d, r) :: rest) = romanCore rem rest := by
  show (romanWhile rem d r rem).1 ++ romanCore (romanWhile rem d r rem).2 rest = _
  rw [romanWhile_stop rem d r rem (by omega)]
  exact String.empty_append _

/-- An entry that fits emits its symbol once and continues with the same
entry on the reduced remainder. -/
theorem romanCore_step_ge (d : Nat) (r : String) (rest : List (Nat × String)) (rem : Nat)
    (hd : 1 ≤ d) (h : d ≤ rem) :
    romanCore rem ((d, r) :: rest) = r ++ romanCore (rem - d) ((d, r) :: rest) := by
  have hn : 1 ≤ rem := by omega
  obtain ⟨k, rfl⟩ : ∃ k, rem = k + 1 := ⟨rem - 1, by omega⟩
  show (romanWhile (k + 1) d r (k + 1)).1 ++ romanCore (romanWhile (k + 1) d r (k + 1)).2 rest = _
  have hw : romanWhile (k + 1) d r (k + 1) =
      (r ++ (romanWhile (k + 1 - d) d r (k + 1 - d)).1,
        (romanWhile (k + 1 - d) d r (k + 1 - d)).2) := by
    simp only [romanWhile, if_pos h]
    rw [romanWhile_congr k (k + 1 - d) d r (k + 1 - d) hd (by omega) (by omega)]
  rw [hw]
  show (r ++ _) ++ _ = _
  rw [String.append_assoc]
  rfl

/-- Every value in the `coding` table is positive. -/
theorem codingPos : ∀ p ∈ coding, 1 ≤ p.1 := by decide

/-- `romanCore` over a suffix of `coding` agrees with the claim's greedy
re-scanning decomposition, provided every skipped entry is larger than the
remainder and the fuel covers the remainder. -/
theorem romanCore_eq_greedy (fuel : Nat) (pre suffix : List (Nat × String)) (rem : Nat)
    (hsplit : coding = pre ++ suffix) (hpre : ∀ p ∈ pre, rem < p.1) (hfuel : rem ≤ fuel) :
    romanCore rem suffix = greedySpecCore fuel rem := by
  cases suffix with
  | nil =>
    have hone : (1, "I") ∈ pre := by
      have : (1, "I") ∈ coding := by decide
      simpa [hsplit] using this
    have hrem : rem = 0 := by have := hpre _ hone; omega
    subst hrem
    have hnone : coding.find? (fun p => decide (p.1 ≤ 0)) = Option.none := by decide
    cases fuel with
    | zero => rfl
    | succ f => simp only [greedySpecCore, hnone]; rfl
  | cons e rest =>
    obtain ⟨d, r⟩ := e
    have hdc : (d, r) ∈ coding := by
      rw [hsplit]; exact List.mem_append_right pre (List.mem_cons_self _ _)
    have hd1 : 1 ≤ d := codingPos (d, r) hdc
    by_cases hc : d ≤ rem
    · have hfind : coding.find? (fun p => decide (p.1 ≤ rem)) = Option.some (d, r) := by
        rw [hsplit, List.find?_append]
        have hnone : pre.find? (fun p => decide (p.1 ≤ rem)) = Option.none :=
          List.find?_eq_none.mpr (fun p hp => by
            simpa using Nat.not_le.mpr (hpre p hp))
        rw [hnone, List.find?_cons_of_pos _ (by simpa using hc)]
        rfl
      obtain ⟨f', rfl⟩ : ∃ f', fuel = f' + 1 := ⟨fuel - 1, by omega⟩
      rw [romanCore_step_ge d r rest rem hd1 hc]
      simp only [greedySpecCore, hfind]
      exact congrArg (fun s => r ++ s)
        (romanCore_eq_greedy f' pre ((d, r) :: rest) (rem - d) hsplit
          (fun p hp => by have := hpre p hp; omega) (by omega))
    · rw [romanCore_step_lt d r rest rem (by omega)]
      exact romanCore_eq_greedy fuel (pre ++ [(d, r)]) rest rem
        (by rw [hsplit, List.append_assoc]; rfl)
        (fun p hp => by
          rcases List.mem_append.mp hp with h | h
          · exact hpre p h
          · simp at h; subst h; omega)
        hfuel
termination_by (fuel, suffix.length)

/-- Which entry the greedy scan selects, characterized by thresholds. -/
theorem coding_find?_eq (rem : Nat) : coding.find? (fun p => decide (p.1 ≤ rem)) =
    (if 1000 ≤ rem then Option.some (1000, "M") else if 900 ≤ rem then Option.some (900, "CM")
    else if 500 ≤ rem then Option.some (500, "D") else if 400 ≤ rem then Option.some (400, "CD")
    else if 100 ≤ rem then Option.some (100, "C") else if 90 ≤ rem then Option.some (90, "XC")
    else if 50 ≤ rem then Option.some (50, "L") else if 40 ≤ rem then Option.some (40, "XL")
    else if 10 ≤ rem then Option.some (10, "X") else if 9 ≤ rem then Option.some (9, "IX")
    else if 5 ≤ rem then Option.some (5, "V") else if 4 ≤ rem then Option.some (4, "IV")
    else if 1 ≤ rem then Option.some (1, "I") else Option.none) := by
  by_cases h1 : 1000 ≤ rem
  · simp [coding, h1]
  by_cases h2 : 900 ≤ rem
  · simp [coding, h1, h2]
  by_cases h3 : 500 ≤ rem
  · simp [coding, h1, h2, h3]
  by_cases h4 : 400 ≤ rem
  · simp [coding, h1, h2, h3, h4]
  by_cases h5 : 100 ≤ rem
  · simp [coding, h1, h2, h3, h4, h5]
  by_cases h6 : 90 ≤ rem
  · simp [coding, h1, h2, h3, h4, h5, h6]
  by_cases h7 : 50 ≤ rem
  · simp [coding, h1, h2, h3, h4, h5, h6, h7]
  by_cases h8 : 40 ≤ rem
  · simp [coding, h1, h2, h3, h4, h5, h6, h7, h8]
  by_cases h9 : 10 ≤ rem
  · simp [coding, h1, h2, h3, h4, h5, h6, h7, h8, h9]
  by_cases h10 : 9 ≤ rem
  · simp [coding, h1, h2, h3, h4, h5, h6, h7, h8, h9, h10]
  by_cases h11 : 5 ≤ rem
  · simp [coding, h1, h2, h3, h4, h5, h6, h7, h8, h9, h10, h11]
  by_cases h12 : 4 ≤ rem
  · simp [coding, h1, h2, h3, h4, h5, h6, h7, h8, h9, h10, h11, h12]
  by_cases h13 : 1 ≤ rem
  · simp [coding, h1, h2, h3, h4, h5, h6, h7, h8, h9, h10, h11, h12, h13]
  · simp [coding, h1, h2, h3, h4, h5, h6, h7, h8, h9, h10, h11, h12, h13]

/-- `headVal` looks only at a nonempty left part of an append. -/
theorem headVal_append_left (a b : List Char) (h : a ≠ []) :
    headVal (a ++ b) = headVal a := by
  cases a with
  | nil => exact absurd rfl h
  | cons c cs => rfl

/-- `fitVal` never exceeds its argument. -/
theorem fitVal_le (x : Nat) : fitVal x ≤ x := by
  rcases hf : coding.find? (fun p => decide (p.1 ≤ x)) with _ | p
  · simp [fitVal, hf]
  · have h := List.find?_some hf
    simp only [decide_eq_true_eq] at h
    simp [fitVal, hf, h]

/-- `fitVal` takes only the tabulated values (or `0`). -/
theorem fitVal_disj (x : Nat) : fitVal x = 0 ∨ fitVal x = 1 ∨ fitVal x = 4 ∨ fitVal x = 5 ∨
    fitVal x = 9 ∨ fitVal x = 10 ∨ fitVal x = 40 ∨ fitVal x = 50 ∨ fitVal x = 90 ∨
    fitVal x = 100 ∨ fitVal x = 400 ∨ fitVal x = 500 ∨ fitVal x = 900 ∨ fitVal x = 1000 := by
  rcases hf : coding.find? (fun p => decide (p.1 ≤ x)) with _ | p
  · simp [fitVal, hf]
  · obtain ⟨d, r⟩ := p
    have hmem := List.mem_of_find?_eq_some hf
    have hd : d = 1000 ∨ d = 900 ∨ d = 500 ∨ d = 400 ∨ d = 100 ∨ d = 90 ∨ d = 50 ∨ d = 40 ∨
        d = 10 ∨ d = 9 ∨ d = 5 ∨ d = 4 ∨ d = 1 := by
      simp [coding, Prod.ext_iff] at hmem
      tauto
    simp only [fitVal, hf]
    tauto

/-- One step of the greedy invariant: if the scan selects `(d, r)` and the
entry's concrete symbol facts hold, the invariant propagates. -/
theorem greedy_step (f rem d : Nat) (r : String)
    (hfind : coding.find? (fun p => decide (p.1 ≤ rem)) = Option.some (d, r))
    (hd : d ≤ rem)
    (hparse : romanToIntCore r.data = (d : ℤ))
    (hne : r.data ≠ [])
    (hheadle : headVal r.data ≤ d)
    (hlast : fitVal (rem - d) ≤ lastVal r.data)
    (hchars : ∀ c ∈ r.data, c ∈ romanSyms)
    (ih : greedyInv (greedySpecCore f (rem - d)) (rem - d)) :
    greedyInv (greedySpecCore (f + 1) rem) rem := by
  obtain ⟨ih1, ih2, ih3, ih4⟩ := ih
  simp only [greedyInv, greedySpecCore, hfind]
  refine ⟨?_, ?_, ?_, ?_⟩
  · rw [String.data_append, romanToIntCore_append _ _ (Or.inr (ih2.trans hlast)), hparse, ih1]
    omega
  · rw [String.data_append, headVal_append_left _ _ hne]
    simp only [fitVal, hfind]
    omega
  · intro c hc
    rw [String.data_append] at hc
    rcases List.mem_append.mp hc with h | h
    · exact hchars c h
    · exact ih3 c h
  · intro _
    rw [String.data_append]
    simp [hne]

/-- The greedy invariant holds of every decomposition whose fuel covers the
remainder. -/
theorem greedy_inv (fuel : Nat) : ∀ rem, rem ≤ fuel → greedyInv (greedySpecCore fuel rem) rem := by
  induction fuel with
  | zero =>
    intro rem h
    have hz : rem = 0 := by omega
    subst hz
    exact ⟨rfl, by decide, by decide, by omega⟩
  | succ f ihf =>
    intro rem hrem
    by_cases h1 : 1000 ≤ rem
    · exact greedy_step f rem 1000 "M"
        (by rw [coding_find?_eq]; simp [h1]) h1
        (by decide) (by decide) (by decide)
        (by have hdj := fitVal_disj (rem - 1000)
            have hle := fitVal_le (rem - 1000)
            have e : lastVal "M".data = 1000 := by decide
            rw [e]
            rcases hdj with h|h|h|h|h|h|h|h|h|h|h|h|h|h <;> omega)
        (by decide) (ihf (rem - 1000) (by omega))
    by_cases h2 : 900 ≤ rem
    · exact greedy_step f rem 900 "CM"
        (by rw [coding_find?_eq]; simp [h1, h2]) h2
        (by decide) (by decide) (by decide)
        (by have hdj := fitVal_disj (rem - 900)
            have hle := fitVal_le (rem - 900)
            have e : lastVal "CM".data = 1000 := by decide
            rw [e]
            rcases hdj with h|h|h|h|h|h|h|h|h|h|h|h|h|h <;> omega)
        (by decide) (ihf (rem - 900) (by omega))
    by_cases h3 : 500 ≤ rem
    · exact greedy_step f rem 500 "D"
        (by rw [coding_find?_eq]; simp [h1, h2, h3]) h3
        (by decide) (by decide) (by decide)
        (by have hdj := fitVal_disj (rem - 500)
            have hle := fitVal_le (rem - 500)
            have e : lastVal "D".data = 500 := by decide
            rw [e]
            rcases hdj with h|h|h|h|h|h|h|h|h|h|h|h|h|h <;> omega)
        (by decide) (ihf (rem - 500) (by omega))
    by_cases h4 : 400 ≤ rem
    · exact greedy_step f rem 400 "CD"
        (by rw [coding_find?_eq]; simp [h1, h2, h3, h4]) h4
        (by decide) (by decide) (by decide)
        (by have hdj := fitVal_disj (rem - 400)
            have hle := fitVal_le (rem - 400)
            have e : lastVal "CD".data = 500 := by decide
            rw [e]
            rcases hdj with h|h|h|h|h|h|h|h|h|h|h|h|h|h <;> omega)
        (by decide) (ihf (rem - 400) (by omega))
    by_cases h5 : 100 ≤ rem
    · exact greedy_step f rem 100 "C"
        (by rw [coding_find?_eq]; simp [h1, h2, h3, h4, h5]) h5
        (by decide) (by decide) (by decide)
        (by have hdj := fitVal_disj (rem - 100)
            have hle := fitVal_le (rem - 100)
            have e : lastVal "C".data = 100 := by decide
            rw [e]
            rcases hdj with h|h|h|h|h|h|h|h|h|h|h|h|h|h <;> omega)
        (by decide) (ihf (rem - 100) (by omega))
    by_cases h6 : 90 ≤ rem
    · exact greedy_step f rem 90 "XC"
        (by rw [coding_find?_eq]; simp [h1, h2, h3, h4, h5, h6]) h6
        (by decide) (by decide) (by decide)
        (by have hdj := fitVal_disj (rem - 90)
            have hle := fitVal_le (rem - 90)
            have e : lastVal "XC".data = 100 := by decide
            rw [e]
            rcases hdj with h|h|h|h|h|h|h|h|h|h|h|h|h|h <;> omega)
        (by decide) (ihf (rem - 90) (by omega))
    by_cases h7 : 50 ≤ rem
    · exact greedy_step f rem 50 "L"
        (by rw [coding_find?_eq]; simp [h1, h2, h3, h4, h5, h6, h7]) h7
        (by decide) (by decide) (by decide)
        (by have hdj := fitVal_disj (rem - 50)
            have hle := fitVal_le (rem - 50)
            have e : lastVal "L".data = 50 := by decide
            rw [e]
            rcases hdj with h|h|h|h|h|h|h|h|h|h|h|h|h|h <;> omega)
        (by decide) (ihf (rem - 50) (by omega))
    by_cases h8 : 40 ≤ rem
    · exact greedy_step f rem 40 "XL"
        (by rw [coding_find?_eq]; simp [h1, h2, h3, h4, h5, h6, h7, h8]) h8
        (by decide) (by decide) (by decide)
        (by have hdj := fitVal_disj (rem - 40)
            have hle := fitVal_le (rem - 40)
            have e : lastVal "XL".data = 50 := by decide
            rw [e]
            rcases hdj with h|h|h|h|h|h|h|h|h|h|h|h|h|h <;> omega)
        (by decide) (ihf (rem - 40) (by omega))
    by_cases h9 : 10 ≤ rem
    · exact greedy_step f rem 10 "X"
        (by rw [coding_find?_eq]; simp [h1, h2, h3, h4, h5, h6, h7, h8, h9]) h9
        (by decide) (by decide) (by decide)
        (by have hdj := fitVal_disj (rem - 10)
            have hle := fitVal_le (rem - 10)
            have e : lastVal "X".data = 10 := by decide
            rw [e]
            rcases hdj with h|h|h|h|h|h|h|h|h|h|h|h|h|h <;> omega)
        (by decide) (ihf (rem - 10) (by omega))
    by_cases h10 : 9 ≤ rem
    · exact greedy_step f rem 9 "IX"
        (by rw [coding_find?_eq]; simp [h1, h2, h3, h4, h5, h6, h7, h8, h9, h10]) h10
        (by decide) (by decide) (by decide)
        (by have hdj := fitVal_disj (rem - 9)
            have hle := fitVal_le (rem - 9)
            have e : lastVal "IX".data = 10 := by decide
            rw [e]
            rcases hdj with h|h|h|h|h|h|h|h|h|h|h|h|h|h <;> omega)
        (by decide) (ihf (rem - 9) (by omega))
    by_cases h11 : 5 ≤ rem
    · exact greedy_step f rem 5 "V"
        (by rw [coding_find?_eq]; simp [h1, h2, h3, h4, h5, h6, h7, h8, h9, h10, h11]) h11
        (by decide) (by decide) (by decide)
        (by have hdj := fitVal_disj (rem - 5)
            have hle := fitVal_le (rem - 5)
            have e : lastVal "V".data = 5 := by decide
            rw [e]
            rcases hdj with h|h|h|h|h|h|h|h|h|h|h|h|h|h <;> omega)
        (by decide) (ihf (rem - 5) (by omega))
    by_cases h12 : 4 ≤ rem
    · exact greedy_step f rem 4 "IV"
        (by rw [coding_find?_eq]; simp [h1, h2, h3, h4, h5, h6, h7, h8, h9, h10, h11, h12]) h12
        (by decide) (by decide) (by decide)
        (by have hdj := fitVal_disj (rem - 4)
            have hle := fitVal_le (rem - 4)
            have e : lastVal "IV".data = 5 := by decide
            rw [e]
            rcases hdj with h|h|h|h|h|h|h|h|h|h|h|h|h|h <;> omega)
        (by decide) (ihf (rem - 4) (by omega))
    by_cases h13 : 1 ≤ rem
    · exact greedy_step f rem 1 "I"
        (by rw [coding_find?_eq]; simp [h1, h2, h3, h4, h5, h6, h7, h8, h9, h10, h11, h12, h13]) h13
        (by decide) (by decide) (by decide)
        (by have hdj := fitVal_disj (rem - 1)
            have hle := fitVal_le (rem - 1)
            have e : lastVal "I".data = 1 := by decide
            rw [e]
            rcases hdj with h|h|h|h|h|h|h|h|h|h|h|h|h|h <;> omega)
        (by decide) (ihf (rem - 1) (by omega))
    · have hz : rem = 0 := by omega
      subst hz
      have hfind : coding.find? (fun p => decide (p.1 ≤ 0)) = Option.none := by decide
      simp only [greedyInv, greedySpecCore, hfind]
      exact ⟨rfl, by decide, by decide, by omega⟩

/-- The source's loop nest equals the claim's greedy decomposition. -/
theorem romanCore_eq_greedySpec (n : Nat) : romanCore n coding = greedySpec n := by
  unfold greedySpec
  exact romanCore_eq_greedy n [] coding n rfl (by simp) le_rfl

/-- On integers in `[1, 3999]`, `roman` takes its greedy branch. -/
theorem roman_int_inrange (n : Nat) (h1 : 1 ≤ n) (h2 : n ≤ 3999) :
    roman (PyNum.int (n : ℤ)) = romanCore n coding := by
  unfold roman
  rw [if_neg]
  · show romanCore (PyNum.int (n : ℤ)).val.trunc.toNat coding = romanCore n coding
    have ht : (PyNum.int (n : ℤ)).val.trunc = (n : ℤ) := by
      show Int.tdiv (n : ℤ) ((1 : ℕ) : ℤ) = (n : ℤ)
      simp
    rw [ht]
    simp
  · rintro (h | h | h)
    · simp only [PyNum.val, PRat.ble, PRat.ofInt, decide_eq_true_eq] at h
      omega
    · simp only [PyNum.val, PRat.ble, PRat.ofInt, decide_eq_true_eq] at h
      omega
    · apply h
      simp only [PyNum.val, PRat.beqv, PRat.ofInt, PRat.trunc, decide_eq_true_eq]
      simp

/-- C4: for every integer `n` with `1 ≤ n ≤ 3999`, `roman(n)` equals the
greedy subtractive-pair decomposition over the table
`M=1000, CM=900, D=500, CD=400, C=100, XC=90, L=50, XL=40, X=10, IX=9, V=5,
IV=4, I=1`, and parsing `roman(n)` back with a standard Roman-to-integer
parser yields `n`. -/
theorem C4_roman_greedy_roundtrip (n : Nat) (h1 : 1 ≤ n) (h2 : n ≤ 3999) :
    roman (PyNum.int (n : ℤ)) = greedySpec n ∧
    romanToIntCore (roman (PyNum.int (n : ℤ))).data = (n : ℤ) := by
  have hr := roman_int_inrange n h1 h2
  have hg := romanCore_eq_greedySpec n
  refine ⟨hr.trans hg, ?_⟩
  rw [hr, hg]
  show romanToIntCore (greedySpecCore n n).data = (n : ℤ)
  exact (greedy_inv n n le_rfl).1

/-- Witness for C4 at `n = 3999`. -/
theorem C4_roman_greedy_roundtrip_witness : 1 ≤ 3999 ∧ 3999 ≤ 3999 ∧
    (roman (PyNum.int ((3999 : Nat) : ℤ)) = greedySpec 3999 ∧
      romanToIntCore (roman (PyNum.int ((3999 : Nat) : ℤ))).data = ((3999 : Nat) : ℤ)) :=
  ⟨by decide, by decide, C4_roman_greedy_roundtrip 3999 (by decide) (by decide)⟩

/-- C8: `roman` returns the plain decimal string form of the input whenever
the input is `≤ 0`, `≥ 4000`, or non-integral (`roman(0) = "0"`,
`roman(4000) = "4000"`, `roman(-1) = "-1"`, `roman(2.5) = str(2.5)`), and
returns a Roman numeral (a nonempty string of Roman symbols) only — and
always — for integers in `(0, 3999]`. -/
theorem C8_roman_fallback :
    roman (PyNum.int 0) = "0" ∧
    roman (PyNum.int 4000) = "4000" ∧
    roman (PyNum.int (-1)) = "-1" ∧
    roman (PyNum.float ⟨5, 2⟩) = "2.5" ∧
    (∀ num : PyNum,
      num.val.ble (PRat.ofInt 0) = true ∨ (PRat.ofInt 4000).ble num.val = true ∨
        (PRat.ofInt num.val.trunc).beqv num.val = false →
      roman num = num.str) ∧
    (∀ n : Nat, 1 ≤ n → n ≤ 3999 →
      (roman (PyNum.int (n : ℤ))).data ≠ [] ∧
      ∀ c ∈ (roman (PyNum.int (n : ℤ))).data, c ∈ romanSyms) := by
  refine ⟨rfl, rfl, rfl, rfl, ?_, ?_⟩
  · intro num h
    unfold roman
    rw [if_pos]
    rcases h with h | h | h
    · exact Or.inl h
    · exact Or.inr (Or.inl h)
    · exact Or.inr (Or.inr (by simp [h]))
  · intro n hn1 hn2
    rw [roman_int_inrange n hn1 hn2, romanCore_eq_greedySpec n]
    have hi := greedy_inv n n le_rfl
    exact ⟨hi.2.2.2 hn1, hi.2.2.1⟩

/-- Witness for C8's quantified parts: the fallback at `5000` and the
Roman-numeral form at `1`. -/
theorem C8_roman_fallback_witness :
    roman (PyNum.int 5000) = (PyNum.int 5000).str ∧
    (roman (PyNum.int ((1 : Nat) : ℤ))).data ≠ [] :=
  ⟨C8_roman_fallback.2.2.2.2.1 (PyNum.int 5000) (Or.inr (Or.inl (by decide))),
    (C8_roman_fallback.2.2.2.2.2 1 (by decide) (by decide)).1⟩

/-- C9: `fmt_sidx(None, use_roman=True) = "I"` (an absent value is treated
as the index 1) and `fmt_sidx(2.5) = "2.50"` (fractional values use the
two-decimal-place default format spec). -/
theorem C9_fmt_defaults :
    fmt_sidx PyVal.none pyFmt2f true = Except.ok "I" ∧
    fmt_sidx (PyVal.float ⟨5, 2⟩) pyFmt2f false = Except.ok "2.50" :=
  ⟨rfl, rfl⟩

/-- C3 counterexample: on the non-numeric non-empty string `"abc"`,
`fmt_sidx` raises `ValueError` (the source catches only `TypeError`), so it
does not return the string unchanged. -/
theorem C3_counterexample :
    fmt_sidx (PyVal.str "abc") pyFmt2f false = Except.error PyErr.valueError := rfl

/-- C3 amended: for every non-empty string that cannot be converted to a
float, `fmt_sidx` raises `ValueError` (for any format spec and any
`use_roman`); only a `TypeError` from `float()` — a non-string non-numeric
object — is caught and answered with `str(i)` unchanged. -/
theorem C3_amended :
    (∀ (s : String) (fmtFn : PRat → String) (ur : Bool), s ≠ "" →
      pyFloatParse s = Option.none →
      fmt_sidx (PyVal.str s) fmtFn ur = Except.error PyErr.valueError) ∧
    (∀ (r : String) (fmtFn : PRat → String) (ur : Bool),
      fmt_sidx (PyVal.other r) fmtFn ur = Except.ok r) := by
  constructor
  · intro s fmtFn ur hne hparse
    unfold fmt_sidx
    have hif : (if PyVal.str s = PyVal.none ∨ PyVal.str s = PyVal.str "" then PyVal.int 1
        else PyVal.str s) = PyVal.str s := by
      rw [if_neg]
      rintro (h | h)
      · exact PyVal.noConfusion h
      · apply hne
        injection h
    rw [hif]
    simp only [hparse]
  · intro r fmtFn ur
    unfold fmt_sidx
    simp

/-- Witness for C3's amended statement at `"abc"` and a non-numeric
object. -/
theorem C3_amended_witness :
    ("abc" : String) ≠ "" ∧
    fmt_sidx (PyVal.str "abc") pyFmt2f true = Except.error PyErr.valueError ∧
    fmt_sidx (PyVal.other "obj") pyFmt2f true = Except.ok "obj" :=
  ⟨by decide, C3_amended.1 "abc" pyFmt2f true (by decide) (by decide),
    C3_amended.2 "obj" pyFmt2f true⟩

/-- A template containing a `%s` conversion splits around the argument. -/
theorem percentCore_split (arg : List Char) : ∀ l, hasPS l = true →
    percentCore arg l = (psSplit l).1 ++ arg ++ percentCore arg (psSplit l).2 := by
  intro l h
  induction l using hasPS.induct with
  | case1 => simp [hasPS] at h
  | case2 c => simp [hasPS] at h
  | case3 x => simp [percentCore, psSplit]
  | case4 x hns ih =>
    simp only [hasPS, if_pos rfl, if_neg hns] at h
    simp [percentCore, psSplit, hns, ih h]
  | case5 a b hns hnp ih =>
    simp only [hasPS, if_pos rfl, if_neg hns, if_neg hnp] at h
    simp [percentCore, psSplit, hns, hnp, ih h]
  | case6 a b c hnp ih =>
    simp only [hasPS, if_neg hnp] at h
    simp [percentCore, psSplit, hnp, ih h]

/-- Repointing a present reference updates exactly its href. -/
theorem guideGet_setHref_self (g : Guide) (k v : String) (r : GuideRef)
    (h : guideGet g k = Option.some r) :
    guideGet (guideSetHref g k v) k = Option.some { r with href := v } := by
  induction g with
  | nil => simp [guideGet] at h
  | cons p g ih =>
    obtain ⟨pk, pr⟩ := p
    by_cases hk : (pk == k) = true
    · simp [guideGet, hk] at h
      simp [guideSetHref, guideGet, hk, h]
    · simp [guideGet, hk] at h
      have hrec := ih h
      simp only [guideSetHref]
      simp [guideGet, hk]
      exact hrec

/-- Repointing one key leaves lookups of other keys unchanged. -/
theorem guideGet_setHref_other (g : Guide) (k v k' : String) (hne : k' ≠ k) :
    guideGet (guideSetHref g k v) k' = guideGet g k' := by
  induction g with
  | nil => rfl
  | cons p g ih =>
    obtain ⟨pk, pr⟩ := p
    by_cases hk : (pk == k) = true
    · have hk' : ¬(pk == k') = true := by
        have he : pk = k := by simpa using hk
        subst he
        simpa using fun hh => hne hh.symm
      simp only [guideSetHref]
      simp [guideGet, hk, hk']
      exact ih
    · by_cases hk' : (pk == k') = true
      · simp only [guideSetHref]
        simp [guideGet, hk, hk']
      · simp only [guideSetHref]
        simp [guideGet, hk, hk']
        exact ih

/-- The `if item is not None:` tail on the generation path: with a `"cover"`
reference present and no `"titlepage"` reference, it inserts the item at
spine position 0 as a linear entry and repoints `guide["cover"]`. -/
theorem finishInsert_spec (cm : CoverManager) (book : Book) (item : ManifestItem)
    (logs : List String)
    (hmem : guideMem book.guide "cover" = true)
    (htp : guideGet book.guide "titlepage" = Option.none) :
    finishInsert cm book item logs =
      (cm,
       { book with
          spine := ((item, true) :: book.spine)
          guide := guideSetHref book.guide "cover" item.href },
       logs) := by
  simp only [finishInsert]
  rw [if_pos hmem]
  rw [if_neg (by simp [guideMem, guideGet_setHref_other book.guide "cover" item.href
    "titlepage" (by decide), htp])]

/-- The template-generation path of `insert_cover`: with no `"titlepage"`
reference and a `"cover"` reference present, the run succeeds, fills the SVG
template with the inspected (or fallback) dimensions, registers exactly one
new manifest item generated under the name `"titlepage"`, inserts it at
spine position 0 as a linear entry, and repoints `guide["cover"]` to the new
item's href. -/
theorem insert_cover_gen (cm : CoverManager) (inspectFn : String → Option (Nat × Nat))
    (book : Book) (cr : GuideRef) (w h : Nat) (logs : List String)
    (htp : guideGet book.guide "titlepage" = Option.none)
    (hcov : guideGet book.guide "cover" = Option.some cr)
    (hwh : (match inspectFn cr.href with
            | Option.some p => p
            | Option.none => (600, 800)) = (w, h))
    (hlogs : (match inspectFn cr.href with
              | Option.none => ["Failed to read cover dimensions"]
              | Option.some _ => []) = logs) :
    ∃ (it : ManifestItem) (book' : Book),
      cm.insert_cover inspectFn book = Except.ok
        ({ cm with svg_template := filledTemplate cm.svg_template w h }, book', logs) ∧
      it.id = (book.manifest.generate "titlepage" "titlepage.xhtml").1 ∧
      it.href = (book.manifest.generate "titlepage" "titlepage.xhtml").2 ∧
      it.media_type = guessTypeXhtml ∧
      it.data = pyPercentS
        (if cm.no_svg_cover then cm.non_svg_template
          else filledTemplate cm.svg_template w h) (unquote cr.href) ∧
      book'.manifest.items = book.manifest.items ++ [it] ∧
      book'.spine = (it, true) :: book.spine ∧
      book'.metadata = book.metadata ∧
      guideGet book'.guide "cover" = Option.some { cr with href := it.href } := by
  unfold CoverManager.insert_cover
  simp only [htp, hcov]
  rw [hwh, hlogs]
  rw [finishInsert_spec _ _ _ _ (by exact (by simp [guideMem, hcov] : guideMem book.guide
    "cover" = true)) (by exact htp)]
  refine ⟨⟨(book.manifest.generate "titlepage" "titlepage.xhtml").1,
    (book.manifest.generate "titlepage" "titlepage.xhtml").2, guessTypeXhtml,
    pyPercentS (if cm.no_svg_cover then cm.non_svg_template
      else filledTemplate cm.svg_template w h) (unquote cr.href)⟩,
    _, rfl, rfl, rfl, rfl, rfl, rfl, rfl, rfl, ?_⟩
  exact guideGet_setHref_self book.guide "cover" _ cr hcov

/-- The filled markup contains the substituted argument. -/
theorem percent_contains_arg (T u : String) (hPS : hasPS T.data = true) :
    containsSub (pyPercentS T u) u :=
  ⟨(psSplit T.data).1, percentCore u.data (psSplit T.data).2,
    percentCore_split u.data T.data hPS⟩

/-- The filled markup contains any substring of the pre-`%s` part of the
template. -/
theorem percent_contains_pre (T u vb : String)
    (hPS : hasPS T.data = true)
    (hvb : subSearch vb.data (psSplit T.data).1 = true) :
    containsSub (pyPercentS T u) vb := by
  obtain ⟨x, y, hxy⟩ := subSearch_sound _ _ hvb
  refine ⟨x, y ++ u.data ++ percentCore u.data (psSplit T.data).2, ?_⟩
  show percentCore u.data T.data = _
  rw [percentCore_split u.data T.data hPS, hxy]
  simp [List.append_assoc]

set_option maxRecDepth 10000 in
/-- C1: for every book whose guide has a `"cover"` reference with href `H`
and no `"titlepage"` reference, when dimension inspection succeeds returning
`(300, 400)`, `insert_cover` adds exactly one new manifest item generated
under the name `"titlepage"` whose markup contains viewBox `"0 0 300 400"`
and references the unquoted form of `H`, inserts that item at spine position
0 as a linear entry, and sets `guide["cover"].href` to the new item's
href.  (The manager is constructed by `__init__` with `no_svg_cover` off;
dimension inspection is the spec's excluded external collaborator, passed as
`inspectFn`.) -/
theorem C1_insert_cover_generates (ndc par : Bool) (fs : Option (String × String))
    (inspectFn : String → Option (Nat × Nat)) (book : Book) (cr : GuideRef)
    (htp : guideGet book.guide "titlepage" = Option.none)
    (hcov : guideGet book.guide "cover" = Option.some cr)
    (hins : inspectFn cr.href = Option.some (300, 400)) :
    ∃ (it : ManifestItem) (book' : Book),
      (CoverManager.init ndc false par fs).insert_cover inspectFn book =
        Except.ok ({ CoverManager.init ndc false par fs with
            svg_template :=
              filledTemplate (CoverManager.init ndc false par fs).svg_template 300 400 },
          book', []) ∧
      it.id = (book.manifest.generate "titlepage" "titlepage.xhtml").1 ∧
      it.href = (book.manifest.generate "titlepage" "titlepage.xhtml").2 ∧
      book'.manifest.items = book.manifest.items ++ [it] ∧
      containsSub it.data "viewBox=\"0 0 300 400\"" ∧
      containsSub it.data (unquote cr.href) ∧
      book'.spine = (it, true) :: book.spine ∧
      guideGet book'.guide "cover" = Option.some { cr with href := it.href } := by
  cases par <;>
  · obtain ⟨it, book', hrun, hid, hhref, hmt, hdata, hitems, hspine, hmd, hguide⟩ :=
      insert_cover_gen (CoverManager.init ndc false _ fs) inspectFn book cr 300 400 []
        htp hcov (by rw [hins]) (by rw [hins])
    simp only [CoverManager.init, Bool.false_eq_true, if_false] at hdata
    refine ⟨it, book', hrun, hid, hhref, hitems, ?_, ?_, hspine, hguide⟩
    · rw [hdata]
      exact percent_contains_pre _ _ _ (by decide) (by decide)
    · rw [hdata]
      exact percent_contains_arg _ _ (by decide)

set_option maxRecDepth 10000 in
/-- C7: for every book on the template-generation path, when image dimension
inspection fails, `insert_cover` does not abort: it falls back to the fixed
dimensions 600×800, logs the warning `"Failed to read cover dimensions"`,
and the generated page's viewBox is `"0 0 600 800"`. -/
theorem C7_insert_cover_dimension_fallback (ndc par : Bool) (fs : Option (String × String))
    (inspectFn : String → Option (Nat × Nat)) (book : Book) (cr : GuideRef)
    (htp : guideGet book.guide "titlepage" = Option.none)
    (hcov : guideGet book.guide "cover" = Option.some cr)
    (hins : inspectFn cr.href = Option.none) :
    ∃ (cm' : CoverManager) (it : ManifestItem) (book' : Book),
      (CoverManager.init ndc false par fs).insert_cover inspectFn book =
        Except.ok (cm', book', ["Failed to read cover dimensions"]) ∧
      book'.manifest.items = book.manifest.items ++ [it] ∧
      containsSub it.data "viewBox=\"0 0 600 800\"" ∧
      book'.spine = (it, true) :: book.spine := by
  cases par <;>
  · obtain ⟨it, book', hrun, hid, hhref, hmt, hdata, hitems, hspine, hmd, hguide⟩ :=
      insert_cover_gen (CoverManager.init ndc false _ fs) inspectFn book cr 600 800
        ["Failed to read cover dimensions"] htp hcov (by rw [hins]) (by rw [hins])
    simp only [CoverManager.init, Bool.false_eq_true, if_false] at hdata
    refine ⟨_, it, book', hrun, hitems, ?_, hspine⟩
    rw [hdata]
    exact percent_contains_pre _ _ _ (by decide) (by decide)

/-- C5: for every book whose guide already contains a `"titlepage"`
reference, `insert_cover` performs no template generation (the instance is
returned unchanged) and creates no new manifest item; it looks up the
manifest item at the defragmented href of that reference, and after the run
spine position 0 holds that existing item as a linear entry. -/
theorem C5_insert_cover_reuses_titlepage (cm : CoverManager)
    (inspectFn : String → Option (Nat × Nat)) (book : Book) (r : GuideRef)
    (item : ManifestItem)
    (htp : guideGet book.guide "titlepage" = Option.some r)
    (hit : manifestHrefs book.manifest (urldefragFst r.href) = Option.some item) :
    ∃ book' : Book,
      cm.insert_cover inspectFn book = Except.ok (cm, book', []) ∧
      book'.manifest = book.manifest ∧
      book'.spine = (item, true) :: book.spine := by
  unfold CoverManager.insert_cover
  simp only [htp, hit]
  unfold finishInsert
  exact ⟨_, rfl, rfl, rfl⟩

/-- C6: for every book whose guide contains neither `"cover"` nor
`"titlepage"`, when default-cover generation is suppressed
(`no_default_cover = True`), `insert_cover` returns without modifying the
book: same manifest, same spine, same guide, and nothing logged. -/
theorem C6_insert_cover_noop_when_suppressed (cm : CoverManager)
    (inspectFn : String → Option (Nat × Nat)) (book : Book)
    (hndc : cm.no_default_cover = true)
    (htp : guideGet book.guide "titlepage" = Option.none)
    (hcov : guideGet book.guide "cover" = Option.none) :
    cm.insert_cover inspectFn book = Except.ok (cm, book, []) := by
  unfold CoverManager.insert_cover
  simp only [htp, hcov]
  unfold CoverManager.default_cover
  rw [if_pos hndc]

/-- C10: `default_cover` returns `None` for every book and configuration on
which it returns at all (the synthesis body is commented out), so with
neither `"cover"` nor `"titlepage"` in the guide, `insert_cover` is a no-op
regardless of the suppression flag. -/
theorem C10_default_cover_always_none :
    (∀ (cm : CoverManager) (md : Metadata) (r : Option String),
      cm.default_cover md = Except.ok r → r = Option.none) ∧
    (∀ (cm : CoverManager) (inspectFn : String → Option (Nat × Nat)) (book : Book)
      (r : Option String),
      guideGet book.guide "titlepage" = Option.none →
      guideGet book.guide "cover" = Option.none →
      cm.default_cover book.metadata = Except.ok r →
      cm.insert_cover inspectFn book = Except.ok (cm, book, [])) := by
  have h1 : ∀ (cm : CoverManager) (md : Metadata) (r : Option String),
      cm.default_cover md = Except.ok r → r = Option.none := by
    intro cm md r h
    unfold CoverManager.default_cover at h
    repeat' split at h
    all_goals
      first
        | (simp only [Except.ok.injEq] at h; exact h.symm)
        | simp at h
  refine ⟨h1, ?_⟩
  intro cm inspectFn book r htp hcov hdc
  have hr := h1 cm book.metadata r hdc
  subst hr
  unfold CoverManager.insert_cover
  simp only [htp, hcov, hdc]

/-- C2 amended: `insert_cover` leaves the configuration flags and the
non-SVG template unchanged, but on the template-generation path it
reassigns the instance's `svg_template` to the substituted string (see the
counterexample), so a repeat invocation is not in general equivalent to a
fresh instance. -/
theorem C2_amended (cm : CoverManager) (inspectFn : String → Option (Nat × Nat))
    (book : Book) (res : CoverManager × Book × List String)
    (h : cm.insert_cover inspectFn book = Except.ok res) :
    res.1.no_default_cover = cm.no_default_cover ∧
    res.1.no_svg_cover = cm.no_svg_cover ∧
    res.1.preserveAspect = cm.preserveAspect ∧
    res.1.non_svg_template = cm.non_svg_template := by
  unfold CoverManager.insert_cover at h
  rcases h1 : guideGet book.guide "titlepage" with _ | gr <;> simp only [h1] at h
  · rcases h2 : guideGet book.guide "cover" with _ | cr <;> simp only [h2] at h
    · rcases h3 : cm.default_cover book.metadata with e | ro <;> simp only [h3] at h
      · simp at h
      · rcases ro with _ | href <;> simp only [Except.ok.injEq] at h <;> subst h <;>
          exact ⟨rfl, rfl, rfl, rfl⟩
    · simp only [Except.ok.injEq] at h
      subst h
      exact ⟨rfl, rfl, rfl, rfl⟩
  · rcases h2 : manifestHrefs book.manifest (urldefragFst gr.href) with _ | item <;>
      simp only [h2] at h
    · simp at h
    · simp only [Except.ok.injEq] at h
      subst h
      exact ⟨rfl, rfl, rfl, rfl⟩

set_option maxRecDepth 100000 in
/-- C2 counterexample: one successful `insert_cover` run on a concrete book
leaves the instance with a different `svg_template` than it was constructed
with (the source reassigns `self.svg_template`), so the claim that the
instance's template fields are unchanged is false. -/
theorem C2_counterexample :
    runOk (cmDef.insert_cover inspOk bkCover) = true ∧
    runSvgTemplate (cmDef.insert_cover inspOk bkCover) ≠ Option.some cmDef.svg_template := by
  constructor
  · rfl
  · decide

/-- Witness for C2's amended statement on a concrete successful run. -/
theorem C2_amended_witness :
    (match cmDef.insert_cover inspOk bkCover with
      | Except.ok res => res.1.non_svg_template = cmDef.non_svg_template
      | Except.error _ => False) := by
  rcases hres : cmDef.insert_cover inspOk bkCover with e | res
  · have hok : runOk (cmDef.insert_cover inspOk bkCover) = true := rfl
    rw [hres] at hok
    simp [runOk] at hok
  · simp only [hres]
    exact (C2_amended cmDef inspOk bkCover res hres).2.2.2

set_option maxRecDepth 10000 in
/-- Witness for C1 on a concrete book. -/
theorem C1_insert_cover_generates_witness :
    guideGet bkCover.guide "titlepage" = Option.none ∧
    guideGet bkCover.guide "cover" = Option.some coverRefC ∧
    inspOk coverRefC.href = Option.some (300, 400) ∧
    (∃ (it : ManifestItem) (book' : Book),
      (CoverManager.init false false false Option.none).insert_cover inspOk bkCover =
        Except.ok ({ CoverManager.init false false false Option.none with
            svg_template :=
              filledTemplate (CoverManager.init false false false Option.none).svg_template
                300 400 },
          book', []) ∧
      it.id = (bkCover.manifest.generate "titlepage" "titlepage.xhtml").1 ∧
      it.href = (bkCover.manifest.generate "titlepage" "titlepage.xhtml").2 ∧
      book'.manifest.items = bkCover.manifest.items ++ [it] ∧
      containsSub it.data "viewBox=\"0 0 300 400\"" ∧
      containsSub it.data (unquote coverRefC.href) ∧
      book'.spine = (it, true) :: bkCover.spine ∧
      guideGet book'.guide "cover" = Option.some { coverRefC with href := it.href }) :=
  ⟨rfl, rfl, rfl,
    C1_insert_cover_generates false false Option.none inspOk bkCover coverRefC rfl rfl rfl⟩

set_option maxRecDepth 10000 in
/-- Witness for C7 on a concrete book with failing inspection. -/
theorem C7_insert_cover_dimension_fallback_witness :
    guideGet bkCover.guide "titlepage" = Option.none ∧
    guideGet bkCover.guide "cover" = Option.some coverRefC ∧
    inspFail coverRefC.href = Option.none ∧
    (∃ (cm' : CoverManager) (it : ManifestItem) (book' : Book),
      (CoverManager.init false false false Option.none).insert_cover inspFail bkCover =
        Except.ok (cm', book', ["Failed to read cover dimensions"]) ∧
      book'.manifest.items = bkCover.manifest.items ++ [it] ∧
      containsSub it.data "viewBox=\"0 0 600 800\"" ∧
      book'.spine = (it, true) :: bkCover.spine) :=
  ⟨rfl, rfl, rfl,
    C7_insert_cover_dimension_fallback false false Option.none inspFail bkCover coverRefC
      rfl rfl rfl⟩

/-- Witness for C5 on a concrete book with an existing titlepage. -/
theorem C5_insert_cover_reuses_titlepage_witness :
    guideGet bkTp.guide "titlepage" = Option.some ⟨"TP", "tp.xhtml#frag"⟩ ∧
    manifestHrefs bkTp.manifest
      (urldefragFst (GuideRef.mk "TP" "tp.xhtml#frag").href) = Option.some itTp ∧
    (∃ book' : Book,
      cmDef.insert_cover inspFail bkTp = Except.ok (cmDef, book', []) ∧
      book'.manifest = bkTp.manifest ∧
      book'.spine = (itTp, true) :: bkTp.spine) :=
  ⟨rfl, rfl,
    C5_insert_cover_reuses_titlepage cmDef inspFail bkTp ⟨"TP", "tp.xhtml#frag"⟩ itTp rfl rfl⟩

/-- Witness for C6 on a concrete book with neither reference. -/
theorem C6_insert_cover_noop_witness :
    cmNoDef.no_default_cover = true ∧
    guideGet bkNone.guide "titlepage" = Option.none ∧
    guideGet bkNone.guide "cover" = Option.none ∧
    cmNoDef.insert_cover inspFail bkNone = Except.ok (cmNoDef, bkNone, []) :=
  ⟨rfl, rfl, rfl, C6_insert_cover_noop_when_suppressed cmNoDef inspFail bkNone rfl rfl rfl⟩

/-- Witness for C10 on a concrete book and metadata. -/
theorem C10_default_cover_always_none_witness :
    (Option.none : Option String) = Option.none ∧
    cmDef.insert_cover inspFail bkNone = Except.ok (cmDef, bkNone, []) :=
  ⟨C10_default_cover_always_none.1 cmDef mdT Option.none rfl,
    C10_default_cover_always_none.2 cmDef inspFail bkNone Option.none rfl rfl rfl⟩

end PdfMasher
